import Mathlib

/-!
Verification of the SAXS analysis core of FAIRChemistry/Giess_2022,
notebook `M3-2_Analysis.ipynb`, shallowly embedded over the real numbers.
Python floats are modelled as real numbers; Python code that can raise an
IndexError or fall off the end of a function (returning `None`) is modelled
with `Option`; numpy calls that can raise are modelled with `Except`.
-/

namespace SAXS

noncomputable section

open Real

/-- Embeds `calculate_scattering_vector` (notebook cell 11): `q = 2π / (d / 10)`,
the spacing (Ångström) to scattering-vector conversion. -/
def calculate_scattering_vector (d : ℝ) : ℝ := (2 * π) / (d / 10)

/-- Embeds `calculate_linear_regression` (cell 11): `y = m * x + b`. -/
def calculate_linear_regression (m x b : ℝ) : ℝ := m * x + b

/-- Embeds `calculate_lattice_plane` (cell 11): `d = 2π / q`, the
scattering-vector to spacing (nanometre) conversion. -/
def calculate_lattice_plane (q : ℝ) : ℝ := (2 * π) / q

/-- Embeds the local table `H1` of `determine_phase` (cell 11). -/
def H1 : List ℝ := [1 / Real.sqrt 3, 1 / Real.sqrt 4, 1 / Real.sqrt 7, 1 / Real.sqrt 9]

/-- Embeds the local table `V1` of `determine_phase` (cell 11). -/
def V1 : List ℝ := [1 / Real.sqrt 2, 1 / Real.sqrt 3, 1 / Real.sqrt 4, 1 / Real.sqrt 5]

/-- Embeds the local table `La` of `determine_phase` (cell 11). -/
def La : List ℝ := [1 / 2, 1 / 3, 1 / 4, 1 / 5]

/-- Embeds one iteration of the loop body of `determine_phase` (cell 11) at
index `i`: the body indexes `d_ratios[i]`, `H1[i]`, `V1[i]`, `La[i]` (an
out-of-range index would raise an IndexError, modelled by `none`) and then
returns a phase label in every branch of its `if`/`elif`/`else` chain. -/
def phase_check (d_ratios : List ℝ) (i : ℕ) : Option String :=
  match d_ratios.get? i, H1.get? i, V1.get? i, La.get? i with
  | some r, some h, some v, some la =>
      some (if |r - h| < 0.03 then "hexagonal"
            else if |r - v| < 0.03 then "cubic"
            else if |r - la| < 0.03 then "lamellar"
            else "indeterminate")
  | _, _, _, _ => none

/-- Embeds `determine_phase` (cell 11). The Python `for` loop returns in
every branch of its body, so only the iteration `i = 0` can ever run; when
`d_ratios` is empty the loop body never runs and the function falls off its
end, returning the Python value `None` (modelled by `none` — a normal
return of a null value, not an exception). -/
def determine_phase (d_ratios : List ℝ) : Option String :=
  match d_ratios with
  | [] => none
  | _ :: _ => phase_check d_ratios 0

/-- Embeds `calculate_a_H1` (cell 11): `a = d * sqrt((4/3) * (h² + k² + h*k))`. -/
def calculate_a_H1 (d : ℝ) (h k : ℤ) : ℝ :=
  d * Real.sqrt ((4 / 3) * ((h : ℝ) ^ 2 + (k : ℝ) ^ 2 + (h : ℝ) * (k : ℝ)))

/-- Embeds `calculate_a_V1` (cell 11): `a = d * sqrt(h² + k² + l²)`. -/
def calculate_a_V1 (d : ℝ) (h k l : ℤ) : ℝ :=
  d * Real.sqrt ((h : ℝ) ^ 2 + (k : ℝ) ^ 2 + (l : ℝ) ^ 2)

/-- Embeds `d_reciprocal` (cell 11): `peak_center / (2π)`. -/
def d_reciprocal (peak_center : ℝ) : ℝ := peak_center / (2 * π)

/-- Embeds `sqrt_miller` (cell 11): `sqrt(h² + k² + l²)`. -/
def sqrt_miller (h k l : ℤ) : ℝ :=
  Real.sqrt ((h : ℝ) ^ 2 + (k : ℝ) ^ 2 + (l : ℝ) ^ 2)

/-- Embeds `np.mean` on a nonempty list: the sum divided by the length. -/
def mean (xs : List ℝ) : ℝ := xs.sum / xs.length

/-- Value slot of the `phase_information` pair of cell 45: a float, or the
sentinel string `"-"` in the indeterminate branch. -/
inductive PhaseValue
  | num (v : ℝ)
  | sentinel

/-- Embeds the Miller list `h = [1, 1, 2, 2, 3]` of the hexagonal branch (cell 45). -/
def h_hex : List ℤ := [1, 1, 2, 2, 3]

/-- Embeds the Miller list `k = [0, 1, 0, 1, 0]` of the hexagonal branch (cell 45). -/
def k_hex : List ℤ := [0, 1, 0, 1, 0]

/-- Embeds the Miller list `h = [1, 1, 2, 2, 2]` of the cubic branch (cell 45). -/
def h_cub : List ℤ := [1, 1, 2, 2, 2]

/-- Embeds the Miller list `k = [0, 1, 0, 1, 2]` of the cubic branch (cell 45). -/
def k_cub : List ℤ := [0, 1, 0, 1, 2]

/-- Embeds the Miller list `l = [0, 1, 0, 1, 2]` of the cubic branch (cell 45). -/
def l_cub : List ℤ := [0, 1, 0, 1, 2]

/-- Embeds the accumulation loop of the hexagonal branch (cell 45):
`for i, j in enumerate(d_measured): a_hex.append(calculate_a_H1(d_measured[i], h[i], k[i]))`.
The loop walks every index of `d_measured` and indexes the Miller lists at
the same position; exhausting a Miller list raises an IndexError, modelled
by `none` for the whole loop. -/
def hex_a_list : List ℝ → List ℤ → List ℤ → Option (List ℝ)
  | [], _, _ => some []
  | d :: ds, h :: hs, k :: ks =>
      (hex_a_list ds hs ks).map fun rest => calculate_a_H1 d h k :: rest
  | _, _, _ => none

/-- Embeds the accumulation loop of the cubic branch (cell 45), analogous to
`hex_a_list` but over three Miller lists and `calculate_a_V1`. -/
def cub_a_list : List ℝ → List ℤ → List ℤ → List ℤ → Option (List ℝ)
  | [], _, _, _ => some []
  | d :: ds, h :: hs, k :: ks, l :: ls =>
      (cub_a_list ds hs ks ls).map fun rest => calculate_a_V1 d h k l :: rest
  | _, _, _, _ => none

/-- Embeds the phase dispatch of cell 45 producing `phase_information`:
an `if`/`elif`/`else` chain on the classifier's result (a string or `None`).
The hexagonal and cubic branches average the per-peak lattice parameters;
the lamellar branch takes `d_measured[0]` (IndexError on an empty list,
modelled by `none`); the final `else` catches everything else — including
the classifier's `None` — and yields `["indeterminate", "-"]`. -/
def phase_information (phase : Option String) (d_measured : List ℝ) :
    Option (String × PhaseValue) :=
  if phase = some "hexagonal" then
    (hex_a_list d_measured h_hex k_hex).map fun a_hex =>
      ("hexagonal", PhaseValue.num (mean a_hex))
  else if phase = some "cubic" then
    (cub_a_list d_measured h_cub k_cub l_cub).map fun a_cub =>
      ("cubic", PhaseValue.num (mean a_cub))
  else if phase = some "lamellar" then
    (d_measured.get? 0).map fun d0 => ("lamellar", PhaseValue.num d0)
  else
    some ("indeterminate", PhaseValue.sentinel)

/-- Fixed Miller-index pair table for the hexagonal phase as the spec states
it: `(h,k) = [(1,0),(1,1),(2,0),(2,1),(3,0)]`. -/
def millerTableHex : List (ℤ × ℤ) := [(1, 0), (1, 1), (2, 0), (2, 1), (3, 0)]

/-- Embeds `numpy.polyfit(x, y, 1)` as called in cells 27 and 60, following
numpy's semantics for a degree-1 fit: it raises `TypeError` for an empty
`x` and then for mismatched lengths (modelled by `Except.error` with
numpy's message); otherwise it returns the least-squares line. When the
normal-equation determinant `n*Σx² - (Σx)²` vanishes (all x equal, e.g. a
single point) the system is rank-deficient: numpy emits only a
`RankWarning` and still returns the minimum-norm least-squares solution,
which this branch computes in closed form. -/
def polyfit_deg1 (x y : List ℝ) : Except String (ℝ × ℝ) :=
  if x.length = 0 then Except.error "expected non-empty vector for x"
  else if x.length ≠ y.length then
    Except.error "expected x and y to have same length"
  else
    let n : ℝ := x.length
    let sx := x.sum
    let sy := y.sum
    let sxx := (x.map fun t => t ^ 2).sum
    let sxy := (List.zipWith (fun s t => s * t) x y).sum
    let den := n * sxx - sx ^ 2
    if den = 0 then
      let c := x.headI
      let ybar := sy / n
      Except.ok (c * ybar / (c ^ 2 + 1), ybar / (c ^ 2 + 1))
    else
      Except.ok ((n * sxy - sx * sy) / den, (sy * sxx - sx * sxy) / den)

/-- Embeds `sklearn.metrics.r2_score` (single output, cell 60): with
residual sum `SS_res = Σ(y_i - f_i)²` and total sum `SS_tot = Σ(y_i - ȳ)²`,
the score is `1 - SS_res/SS_tot`; sklearn returns 1 when the numerator is
zero (also for a constant target) and 0 when only the denominator is zero. -/
def r2_score (y_true y_pred : List ℝ) : ℝ :=
  let ybar := mean y_true
  let ss_res := (List.zipWith (fun a b => (a - b) ^ 2) y_true y_pred).sum
  let ss_tot := (y_true.map fun a => (a - ybar) ^ 2).sum
  if ss_res = 0 then 1
  else if ss_tot = 0 then 0
  else 1 - ss_res / ss_tot

/-- Embeds cell 60: `coef = np.polyfit(x, y, 1); fit = np.poly1d(coef);
r2 = r2_score(y, fit(x))`, the cubic space-group discriminator's
(slope, intercept, R²) diagnostics. -/
def fit_diagnostics (x y : List ℝ) : Except String (ℝ × ℝ × ℝ) :=
  Except.map
    (fun mb : ℝ × ℝ =>
      (mb.1, mb.2, r2_score y (x.map fun t => calculate_linear_regression mb.1 t mb.2)))
    (polyfit_deg1 x y)

/-- Embeds the comprehension of cell 58:
`x = [sqrt_miller(h[index], k[index], l[index]) for index, item in enumerate(h)]`.
It walks the indices of `h` and indexes `k` and `l` at the same position;
exhausting `k` or `l` raises an IndexError, modelled by `none`. -/
def miller_x : List ℤ → List ℤ → List ℤ → Option (List ℝ)
  | [], _, _ => some []
  | h :: hs, k :: ks, l :: ls =>
      (miller_x hs ks ls).map fun rest => sqrt_miller h k l :: rest
  | _, _, _ => none

/-! ### Theorems -/

/-- Claim C1: for every non-empty list of spacing ratios the classifier's
result is determined entirely at index 0 in one comparison pass: it is
`hexagonal` when `d_ratio[0]` is within 0.03 of `1/sqrt 3`, else `cubic`
when within 0.03 of `1/sqrt 2`, else `lamellar` when within 0.03 of `1/2`,
else `indeterminate` — independent of every later ratio. -/
theorem determine_phase_first_index (r : ℝ) (rest : List ℝ) :
    determine_phase (r :: rest) =
      some (if |r - 1 / Real.sqrt 3| < 0.03 then "hexagonal"
            else if |r - 1 / Real.sqrt 2| < 0.03 then "cubic"
            else if |r - 1 / 2| < 0.03 then "lamellar"
            else "indeterminate") := by
  simp [determine_phase, phase_check, H1, V1, La]

/-- Claim C2, counterexample: on the empty ratio list the classifier neither
raises (its body has no failing operation on this path) nor returns the
label `indeterminate`: the loop never runs and the function returns the
Python null `None` (modelled by `none`), a silent third outcome. -/
theorem determine_phase_empty_counterexample :
    determine_phase ([] : List ℝ) = none ∧
      determine_phase ([] : List ℝ) ≠ some "indeterminate" :=
  ⟨rfl, by simp [determine_phase]⟩

/-- Claim C2, amended: on the empty ratio list the classifier silently
returns `None` (not an exception, not the label `indeterminate`); the
resolver's final `else` branch then still yields the
(`indeterminate`, `"-"`) record. -/
theorem determine_phase_empty_silent_none (ds : List ℝ) :
    determine_phase ([] : List ℝ) = none ∧
      phase_information (determine_phase []) ds =
        some ("indeterminate", PhaseValue.sentinel) := by
  refine ⟨rfl, ?_⟩
  simp [determine_phase, phase_information]

/-- Claim C5: for phase `lamellar` the resolver returns exactly the first
measured spacing, with no averaging and no dependence on the rest. -/
theorem resolver_lamellar_first (d0 : ℝ) (rest : List ℝ) :
    phase_information (some "lamellar") (d0 :: rest) =
      some ("lamellar", PhaseValue.num d0) := by
  simp [phase_information]

/-- Claim C9: an `indeterminate` phase reaching the resolver is not an
error: the resolver returns the (`indeterminate`, `"-"`) pair. -/
theorem resolver_indeterminate_sentinel (ds : List ℝ) :
    phase_information (some "indeterminate") ds =
      some ("indeterminate", PhaseValue.sentinel) := by
  simp [phase_information]

/-- Claim C6: for every `d > 0`, converting `d * 10` Ångström to a
scattering vector and back to a spacing in nanometres returns `d`; the
factor 10 accounts for the Å-to-nm conversion in the forward direction. -/
theorem conversion_round_trip (d : ℝ) (hd : 0 < d) :
    calculate_lattice_plane (calculate_scattering_vector (d * 10)) = d := by
  unfold calculate_lattice_plane calculate_scattering_vector
  rw [show d * 10 / 10 = d by ring]
  rw [div_div_eq_mul_div, mul_div_assoc, mul_comm,
    div_mul_cancel₀ _ (by positivity : 2 * π ≠ 0)]

/-- Witness for claim C6 at `d = 1`. -/
theorem conversion_round_trip_witness :
    (0 : ℝ) < 1 ∧
      calculate_lattice_plane (calculate_scattering_vector (1 * 10)) = 1 :=
  ⟨by norm_num, conversion_round_trip 1 (by norm_num)⟩

/-- Claim C7: applying `calculate_scattering_vector` to the literature
reference spacings (cell 25) yields the three target q-values to better
than `10⁻⁶` absolute error, hence to at least 6 significant figures for
values of these magnitudes. -/
theorem calibration_target_q_values :
    |calculate_scattering_vector 52.49824535 - 1.19683720| < 1e-6 ∧
      |calculate_scattering_vector 26.24912267 - 2.39367440| < 1e-6 ∧
      |calculate_scattering_vector 17.49941512 - 3.59051160| < 1e-6 := by
  have h1 := Real.pi_gt_d6
  have h2 := Real.pi_lt_d6
  unfold calculate_scattering_vector
  norm_num [abs_sub_lt_iff]
  constructor
  · constructor <;> nlinarith
  constructor
  · constructor <;> nlinarith
  · constructor <;> nlinarith

/-- Claim C3, counterexample: with exactly one calibration point the fit
does not fail — numpy emits only a `RankWarning` and returns the
minimum-norm least-squares line, here `(1, 1)` for the single point
`(1, 2)` — contradicting "fails explicitly whenever fewer than 2 points". -/
theorem polyfit_single_point_counterexample :
    polyfit_deg1 [1] [2] = Except.ok (1, 1) := by
  simp [polyfit_deg1]
  norm_num

/-- Claim C3, amended: the fit fails explicitly when given zero calibration
points, and fails with numpy's length-mismatch precondition error whenever
a non-empty peak-center sequence and the reference-spacing sequence have
different lengths; with exactly one point it only warns and returns a
degenerate line. -/
theorem polyfit_precondition_errors (x y : List ℝ) :
    (x.length = 0 → polyfit_deg1 x y = Except.error "expected non-empty vector for x") ∧
      (x.length ≠ 0 → x.length ≠ y.length →
        polyfit_deg1 x y = Except.error "expected x and y to have same length") := by
  constructor
  · intro h0
    simp [polyfit_deg1, h0]
  · intro h0 hne
    simp [polyfit_deg1, h0, hne]

/-- Witness for claim C3's amended statement: the empty-input error at
`x = []` and the mismatch error at `x = [1, 2]`, `y = [1]`. -/
theorem polyfit_precondition_errors_witness :
    polyfit_deg1 ([] : List ℝ) [1] = Except.error "expected non-empty vector for x" ∧
      polyfit_deg1 ([1, 2] : List ℝ) [1] = Except.error "expected x and y to have same length" :=
  ⟨(polyfit_precondition_errors [] [1]).1 rfl,
    (polyfit_precondition_errors [1, 2] [1]).2 (by simp) (by simp)⟩

/-- When the measured-spacing list is no longer than either Miller list,
the hexagonal accumulation loop succeeds and produces exactly the
per-peak lattice parameters of the zipped Miller pairs. -/
theorem hex_a_list_eq (ds : List ℝ) :
    ∀ hs ks : List ℤ, ds.length ≤ hs.length → ds.length ≤ ks.length →
      hex_a_list ds hs ks =
        some (List.zipWith (fun d p => calculate_a_H1 d p.1 p.2) ds (hs.zip ks)) := by
  induction ds with
  | nil => intro hs ks _ _; simp [hex_a_list]
  | cons d ds ih =>
    intro hs ks h1 h2
    match hs, ks with
    | [], _ => simp at h1
    | _ :: _, [] => simp at h2
    | h :: hs, k :: ks =>
      simp only [List.zip_cons_cons, List.zipWith_cons_cons, hex_a_list]
      rw [ih hs ks (by simpa using h1) (by simpa using h2)]
      simp

/-- The hexagonal accumulation loop succeeds exactly when neither Miller
list is exhausted before the measured spacings. -/
theorem hex_a_list_isSome (ds : List ℝ) :
    ∀ hs ks : List ℤ,
      (hex_a_list ds hs ks).isSome ↔ ds.length ≤ hs.length ∧ ds.length ≤ ks.length := by
  induction ds with
  | nil => intro hs ks; simp [hex_a_list]
  | cons d ds ih =>
    intro hs ks
    match hs, ks with
    | [], _ => simp [hex_a_list]
    | _ :: _, [] => simp [hex_a_list]
    | h :: hs, k :: ks =>
      simp only [hex_a_list, Option.isSome_map', List.length_cons, ih,
        Nat.add_le_add_iff_right]

/-- The cubic accumulation loop succeeds exactly when none of the three
Miller lists is exhausted before the measured spacings. -/
theorem cub_a_list_isSome (ds : List ℝ) :
    ∀ hs ks ls : List ℤ,
      (cub_a_list ds hs ks ls).isSome ↔
        ds.length ≤ hs.length ∧ ds.length ≤ ks.length ∧ ds.length ≤ ls.length := by
  induction ds with
  | nil => intro hs ks ls; simp [cub_a_list]
  | cons d ds ih =>
    intro hs ks ls
    match hs, ks, ls with
    | [], _, _ => simp [cub_a_list]
    | _ :: _, [], _ => simp [cub_a_list]
    | _ :: _, _ :: _, [] => simp [cub_a_list]
    | h :: hs, k :: ks, l :: ls =>
      simp only [cub_a_list, Option.isSome_map', List.length_cons, ih,
        Nat.add_le_add_iff_right]

/-- Claim C4: for phase `hexagonal` with at most 5 measured spacings the
resolver returns the arithmetic mean of
`calculate_a_H1 dᵢ hᵢ kᵢ` over the first `n` entries of the fixed Miller
pair table `[(1,0),(1,1),(2,0),(2,1),(3,0)]`; in particular, for two
spacings it is the mean of `calculate_a_H1 d0 1 0` and
`calculate_a_H1 d1 1 1`. -/
theorem resolver_hexagonal_mean :
    (∀ ds : List ℝ, 1 ≤ ds.length → ds.length ≤ 5 →
      phase_information (some "hexagonal") ds =
        some ("hexagonal",
          PhaseValue.num
            (mean (List.zipWith (fun d p => calculate_a_H1 d p.1 p.2) ds millerTableHex)))) ∧
      ∀ d0 d1 : ℝ,
        phase_information (some "hexagonal") [d0, d1] =
          some ("hexagonal",
            PhaseValue.num ((calculate_a_H1 d0 1 0 + calculate_a_H1 d1 1 1) / 2)) := by
  have main : ∀ ds : List ℝ, 1 ≤ ds.length → ds.length ≤ 5 →
      phase_information (some "hexagonal") ds =
        some ("hexagonal",
          PhaseValue.num
            (mean (List.zipWith (fun d p => calculate_a_H1 d p.1 p.2) ds millerTableHex))) := by
    intro ds _ h5
    have hz : h_hex.zip k_hex = millerTableHex := rfl
    have hloop := hex_a_list_eq ds h_hex k_hex (by simpa [h_hex] using h5)
      (by simpa [k_hex] using h5)
    rw [hz] at hloop
    simp [phase_information, hloop]
  refine ⟨main, fun d0 d1 => ?_⟩
  rw [main [d0, d1] (by simp) (by simp)]
  simp [millerTableHex, mean]

/-- Witness for claim C4 at the two measured spacings `[3, 2]`. -/
theorem resolver_hexagonal_mean_witness :
    1 ≤ ([3, 2] : List ℝ).length ∧ ([3, 2] : List ℝ).length ≤ 5 ∧
      phase_information (some "hexagonal") [3, 2] =
        some ("hexagonal",
          PhaseValue.num
            (mean (List.zipWith (fun d p => calculate_a_H1 d p.1 p.2) [3, 2] millerTableHex))) :=
  ⟨by simp, by simp, resolver_hexagonal_mean.1 [3, 2] (by simp) (by simp)⟩

/-- Claim C10: the hexagonal and cubic resolver branches loop over every
measured spacing while the Miller lists are fixed at 5 entries, so the
resolver succeeds exactly when there are at most 5 measured spacings, and
with 6 or more the table lookup fails. -/
theorem resolver_table_bounds (ds : List ℝ) :
    ((phase_information (some "hexagonal") ds).isSome ↔ ds.length ≤ 5) ∧
      ((phase_information (some "cubic") ds).isSome ↔ ds.length ≤ 5) := by
  constructor
  · have hbr : phase_information (some "hexagonal") ds =
        (hex_a_list ds h_hex k_hex).map fun a_hex =>
          ("hexagonal", PhaseValue.num (mean a_hex)) := by
      simp [phase_information]
    rw [hbr, Option.isSome_map', hex_a_list_isSome]
    simp [h_hex, k_hex]
  · have hbr : phase_information (some "cubic") ds =
        (cub_a_list ds h_cub k_cub l_cub).map fun a_cub =>
          ("cubic", PhaseValue.num (mean a_cub)) := by
      simp [phase_information]
    rw [hbr, Option.isSome_map', cub_a_list_isSome]
    simp [h_cub, k_cub, l_cub]

/-- Sum of an affine image of a list. -/
theorem sum_map_linear (m b : ℝ) (x : List ℝ) :
    (x.map fun t => m * t + b).sum = m * x.sum + b * x.length := by
  induction x with
  | nil => simp
  | cons a l ih =>
    simp only [List.map_cons, List.sum_cons, List.length_cons, ih]
    push_cast
    ring

/-- Sum of products of a list with an affine image of itself. -/
theorem sum_zip_mul_linear (m b : ℝ) (x : List ℝ) :
    (List.zipWith (fun s t => s * t) x (x.map fun t => m * t + b)).sum
      = m * (x.map fun t => t ^ 2).sum + b * x.sum := by
  induction x with
  | nil => simp
  | cons a l ih =>
    simp only [List.map_cons, List.zipWith_cons_cons, List.sum_cons, ih]
    ring

/-- Expansion of the sum of squared deviations from a constant. -/
theorem sum_sq_dev (μ : ℝ) (x : List ℝ) :
    (x.map fun t => (t - μ) ^ 2).sum
      = (x.map fun t => t ^ 2).sum - 2 * μ * x.sum + x.length * μ ^ 2 := by
  induction x with
  | nil => simp
  | cons a l ih =>
    simp only [List.map_cons, List.sum_cons, List.length_cons, ih]
    push_cast
    ring

/-- A list containing two distinct values has a positive normal-equation
determinant `n * Σx² - (Σx)²` (a scaled variance). -/
theorem den_pos (x : List ℝ) (a c : ℝ) (ha : a ∈ x) (hc : c ∈ x) (hne : a ≠ c) :
    0 < (x.length : ℝ) * (x.map fun t => t ^ 2).sum - x.sum ^ 2 := by
  have hlen : 0 < x.length := List.length_pos.mpr (by rintro rfl; simp at ha)
  have hn : 0 < (x.length : ℝ) := by exact_mod_cast hlen
  set μ := x.sum / x.length with hμ
  have key : (x.length : ℝ) * (x.map fun t => (t - μ) ^ 2).sum
      = (x.length : ℝ) * (x.map fun t => t ^ 2).sum - x.sum ^ 2 := by
    rw [sum_sq_dev, hμ]
    field_simp
    ring
  have hALL : ∀ t ∈ x.map fun t => (t - μ) ^ 2, (0 : ℝ) ≤ t := by
    intro t ht
    rcases List.mem_map.mp ht with ⟨s, _, rfl⟩
    positivity
  have hpos : 0 < (x.map fun t => (t - μ) ^ 2).sum := by
    rcases lt_or_eq_of_le (List.sum_nonneg hALL) with hlt | heq
    · exact hlt
    have hmem : ∀ t ∈ x, (t - μ) ^ 2 ≤ 0 := fun t ht => by
      calc (t - μ) ^ 2 ≤ (x.map fun t => (t - μ) ^ 2).sum :=
            List.single_le_sum hALL _ (List.mem_map_of_mem _ ht)
        _ = 0 := heq.symm
    have haμ : a = μ := by nlinarith [hmem a ha, sq_nonneg (a - μ)]
    have hcμ : c = μ := by nlinarith [hmem c hc, sq_nonneg (c - μ)]
    exact absurd (haμ.trans hcμ.symm) hne
  calc (0 : ℝ) < (x.length : ℝ) * (x.map fun t => (t - μ) ^ 2).sum :=
        mul_pos hn hpos
    _ = _ := key

/-- The degree-1 least-squares fit recovers the exact coefficients when the
data lie exactly on a line and at least two x-values are distinct. -/
theorem polyfit_exact (x : List ℝ) (m b : ℝ) (a c : ℝ)
    (ha : a ∈ x) (hc : c ∈ x) (hne : a ≠ c) :
    polyfit_deg1 x (x.map fun t => m * t + b) = Except.ok (m, b) := by
  have hx0 : ¬x.length = 0 := by
    simp only [List.length_eq_zero]
    rintro rfl
    simp at ha
  have hden := den_pos x a c ha hc hne
  unfold polyfit_deg1
  rw [if_neg hx0, if_neg (by simp), sum_map_linear, sum_zip_mul_linear,
    if_neg (by intro h; rw [h] at hden; exact lt_irrefl 0 hden)]
  refine congrArg Except.ok (Prod.ext ?_ ?_)
  · show ((x.length : ℝ) * (m * (x.map fun t => t ^ 2).sum + b * x.sum)
        - x.sum * (m * x.sum + b * x.length))
        / ((x.length : ℝ) * (x.map fun t => t ^ 2).sum - x.sum ^ 2) = m
    rw [div_eq_iff hden.ne']
    ring
  · show ((m * x.sum + b * x.length) * (x.map fun t => t ^ 2).sum
        - x.sum * (m * (x.map fun t => t ^ 2).sum + b * x.sum))
        / ((x.length : ℝ) * (x.map fun t => t ^ 2).sum - x.sum ^ 2) = b
    rw [div_eq_iff hden.ne']
    ring

/-- A prediction equal to the observations has zero residual sum, so the
coefficient of determination is 1. -/
theorem r2_score_self (y : List ℝ) : r2_score y y = 1 := by
  have h : (List.zipWith (fun a b => (a - b) ^ 2) y y).sum = 0 := by
    induction y with
    | nil => simp
    | cons a l ih => simp [ih]
  simp [r2_score, h]

/-- Claim C8: when the discriminator's points `(xᵢ, yᵢ)`, built from Miller
norms `xᵢ = sqrt(hᵢ² + kᵢ² + lᵢ²)` and reciprocal spacings `yᵢ = qᵢ/(2π)`,
lie exactly on a line `y = m*x + b` with at least two distinct x-values,
the least-squares fit recovers slope `m` and intercept `b` and the
reported coefficient of determination equals 1. -/
theorem discriminator_exact_fit (hs ks ls : List ℤ) (qs : List ℝ)
    (x y : List ℝ) (m b : ℝ)
    (hx : miller_x hs ks ls = some x) (hy : y = qs.map d_reciprocal)
    (hline : y = x.map fun t => m * t + b)
    (a c : ℝ) (ha : a ∈ x) (hc : c ∈ x) (hne : a ≠ c) :
    fit_diagnostics x y = Except.ok (m, b, 1) := by
  subst hline
  unfold fit_diagnostics
  rw [polyfit_exact x m b a c ha hc hne]
  simp only [Except.map, calculate_linear_regression, r2_score_self]

/-- Witness for claim C8: the Miller triples (1,0,0) and (0,0,0) give
`x = [1, 0]`; the scattering vectors `[6π, 2π]` give `y = [3, 1]`, which
lies exactly on `y = 2*x + 1`; the discriminator returns (2, 1, 1). -/
theorem discriminator_exact_fit_witness :
    fit_diagnostics [1, 0] [3, 1] = Except.ok (2, 1, 1) :=
  discriminator_exact_fit [1, 0] [0, 0] [0, 0] [6 * π, 2 * π] [1, 0] [3, 1] 2 1
    (by norm_num [miller_x, sqrt_miller])
    (by have hπ := Real.pi_ne_zero
        simp only [List.map_cons, List.map_nil, d_reciprocal]
        rw [show (6 * π) / (2 * π) = 3 by field_simp; ring,
          div_self (by positivity : (2 * π : ℝ) ≠ 0)])
    (by norm_num)
    1 0 (by simp) (by simp) (by norm_num)

end

end SAXS
